import Mathlib

/-!
Verification of a Schnorr-style non-interactive zero-knowledge proof of
knowledge of a discrete logarithm (Fiat-Shamir transform), as implemented
in `src/lib.rs` over the secp256k1 curve with SHA-256.

Modelling choices (shallow embedding):

* The secp256k1 group is cyclic of prime order `groupOrder`.  We work in
  exponent coordinates with respect to the curve generator `G`: a curve
  point `a·G` is represented by the scalar `a : ZMod groupOrder`.  Under
  this (group-isomorphic) coordinatization, point addition is addition in
  `ZMod groupOrder` and scalar multiplication of a point is multiplication
  in `ZMod groupOrder`.  Equality of points is equality in `ZMod groupOrder`.
* SHA-256 (`sha2::Sha256`) and the uncompressed point serialization
  (`Point::to_bytes(false)`) are external collaborators of the Rust code
  (the `sha2` and `curv` crates); they are modelled as explicit function
  parameters `H : List ℕ → List ℕ` (byte list to 32-byte digest) and
  `ser : Pt → List ℕ` (point to 65-byte uncompressed encoding).  The
  incremental `update` calls of the hasher accumulate a byte string; a
  fixed concrete stand-in `HC`/`serC` with the same shape (32-byte output,
  fixed-length injective serialization) instantiates the parametric
  theorems on concrete inputs.
* `panic!` (and the `unwrap` on the digest slice conversion) is modelled
  by `Option`: `none` is an abort, `some` a normal return.
* Byte strings are `List ℕ` (each entry a byte value); `session_id` is the
  UTF-8 byte string of the Rust `&str`; `participant_id` is the Rust `i32`,
  modelled as `ℤ`, encoded by `to_be_bytes` as the 4 big-endian bytes of
  its value modulo `2^32` (two's complement).
* The prover's internal random draw `Scalar::random()` is made an explicit
  argument `random_scalar` of `generate_proof`.
-/

/-- The order of the secp256k1 group (a 256-bit prime); all scalar
arithmetic in the code (`curv::Scalar<Secp256k1>`) is modulo this value. -/
def groupOrder : ℕ :=
  115792089237316195423570985008687907852837564279074904382605163141518161494337

/-- `curv::Scalar<Secp256k1>`: the scalar field of the curve. -/
abbrev Scalar : Type := ZMod groupOrder

/-- `curv::Point<Secp256k1>` in exponent coordinates: the point `a·G` is
represented by `a : ZMod groupOrder` (the group is cyclic of prime order,
so this coordinatization is a group isomorphism).  Point addition is `+`;
scalar multiplication of a point is `*`. -/
abbrev Pt : Type := ZMod groupOrder

instance : NeZero groupOrder := ⟨by decide⟩

/-- Big-endian interpretation of a byte string as an unsigned integer
(`curv::BigInt::from_bytes`). -/
def bytesToNatBE (l : List ℕ) : ℕ := l.foldl (fun a b => a * 256 + b) 0

/-- The `w` big-endian bytes of `v % 256^w` (used to model `to_be_bytes`
and the concrete stand-in serialization). -/
def natToBytesBE : ℕ → ℕ → List ℕ
  | 0, _ => []
  | w + 1, v => natToBytesBE w (v / 256) ++ [v % 256]

/-- `i32::to_be_bytes`: the 4 big-endian bytes of the 32-bit two's
complement representation of `participant_id`. -/
def i32ToBeBytes (participant_id : ℤ) : List ℕ :=
  natToBytesBE 4 (participant_id % (2 ^ 32 : ℤ)).toNat

/-- `sha2::Digest::update`: the incremental hash state is the byte string
accumulated so far, and an update appends the new data. -/
def hashUpdate (st : List ℕ) (data : List ℕ) : List ℕ := st ++ data

/-- The byte string fed to the hash by `compute_challenge`: the updates of
`session_id.as_bytes()`, `participant_id.to_be_bytes()`, and
`point.to_bytes(false)` for each point in order (source lines 22–27). -/
def hashInput (ser : Pt → List ℕ) (session_id : List ℕ) (participant_id : ℤ)
    (points : List Pt) : List ℕ :=
  points.foldl (fun st p => hashUpdate st (ser p))
    (hashUpdate (hashUpdate [] session_id) (i32ToBeBytes participant_id))

/-- `sha_hash_bytes.try_into()`: the slice-to-32-byte-array conversion
before `BigInt::from_bytes`; fails (`none`) unless the digest has exactly
32 bytes. -/
def tryInto32 (l : List ℕ) : Option (List ℕ) :=
  if l.length = 32 then some l else none

/-- The proof object of `src/lib.rs` (`pub struct DLogProof`). -/
structure DLogProof where
  commitment : Pt
  response : Scalar
deriving DecidableEq

/-- `DLogProof::new`. -/
def DLogProof.new (commitment : Pt) (response : Scalar) : DLogProof :=
  ⟨commitment, response⟩

/-- `DLogProof::compute_challenge` (source lines 17–39): hash the session
id bytes, the big-endian participant id bytes and the uncompressed point
serializations; convert the digest to a big integer (`try_into().unwrap()`
modelled by `tryInto32`, with `unwrap` panic as `none`); reduce it into the
scalar field (`Scalar::from_bigint`); panic (`none`) if the resulting
scalar is zero. -/
def DLogProof.compute_challenge (H : List ℕ → List ℕ) (ser : Pt → List ℕ)
    (session_id : List ℕ) (participant_id : ℤ) (points : List Pt) :
    Option Scalar :=
  match tryInto32 (H (hashInput ser session_id participant_id points)) with
  | none => none
  | some sha_hash_bytes =>
    let hash_as_bigint : ℕ := bytesToNatBE sha_hash_bytes
    let challenge : Scalar := (hash_as_bigint : Scalar)
    if challenge = 0 then none else some challenge

/-- `DLogProof::generate_proof` (source lines 41–59), with the internal
`Scalar::random()` draw passed in as `random_scalar`: commitment is
`base_point * random_scalar`, challenge is derived from
`[base_point, public_key, commitment]`, response is
`random_scalar + private_key * challenge`.  A challenge-derivation panic
propagates as `none`. -/
def DLogProof.generate_proof (H : List ℕ → List ℕ) (ser : Pt → List ℕ)
    (session_id : List ℕ) (participant_id : ℤ) (private_key : Scalar)
    (public_key : Pt) (base_point : Pt) (random_scalar : Scalar) :
    Option DLogProof :=
  let commitment : Pt := base_point * random_scalar
  match DLogProof.compute_challenge H ser session_id participant_id
      [base_point, public_key, commitment] with
  | none => none
  | some challenge =>
    some (DLogProof.new commitment (random_scalar + private_key * challenge))

/-- `DLogProof::verify_proof` (source lines 61–77): recompute the challenge
from `[base_point, public_key, self.commitment]`, then test
`base_point * self.response == self.commitment + challenge * public_key`.
A challenge-derivation panic propagates as `none`. -/
def DLogProof.verify_proof (H : List ℕ → List ℕ) (ser : Pt → List ℕ)
    (self : DLogProof) (session_id : List ℕ) (participant_id : ℤ)
    (public_key : Pt) (base_point : Pt) : Option Bool :=
  match DLogProof.compute_challenge H ser session_id participant_id
      [base_point, public_key, self.commitment] with
  | none => none
  | some challenge =>
    let lhs : Pt := base_point * self.response
    let rhs : Pt := self.commitment + challenge * public_key
    some (decide (lhs = rhs))

/-- The flat transcript described by the spec (§4.1 steps 2–4): the raw
session id bytes, then the fixed-width big-endian participant id bytes,
then each point's uncompressed serialization in order. -/
def challengeTranscript (ser : Pt → List ℕ) (session_id : List ℕ)
    (participant_id : ℤ) (points : List Pt) : List ℕ :=
  session_id ++ i32ToBeBytes participant_id ++ (points.map ser).flatten

/-- Concrete stand-in for the uncompressed point serialization: the tag
byte 4 followed by 64 big-endian bytes of the exponent coordinate —
fixed length 65 and injective, like `Point::to_bytes(false)`. -/
def serC (p : Pt) : List ℕ := 4 :: natToBytesBE 64 (ZMod.val p)

/-- Concrete stand-in for the 256-bit hash oracle: a 32-byte digest
obtained by absorbing each input byte into a 256-bit state. -/
def HC (l : List ℕ) : List ℕ :=
  natToBytesBE 32 (l.foldl (fun a b => (a * 257 + b + 1) % (2 ^ 256)) 7)

/-! ### Helper lemmas about the byte-level encodings -/

lemma foldl_hashUpdate (ser : Pt → List ℕ) (pts : List Pt) (st : List ℕ) :
    pts.foldl (fun st p => hashUpdate st (ser p)) st = st ++ (pts.map ser).flatten := by
  induction pts generalizing st with
  | nil => simp [hashUpdate]
  | cons p ps ih => rw [List.foldl_cons, ih]; simp [hashUpdate]

/-- The byte string accumulated by the incremental `update` calls of
`compute_challenge` is exactly the flat transcript of the spec. -/
lemma hashInput_eq_transcript (ser : Pt → List ℕ) (sid : List ℕ) (pid : ℤ)
    (pts : List Pt) : hashInput ser sid pid pts = challengeTranscript ser sid pid pts := by
  unfold hashInput challengeTranscript
  rw [foldl_hashUpdate]
  simp [hashUpdate]

lemma natToBytesBE_length (w v : ℕ) : (natToBytesBE w v).length = w := by
  induction w generalizing v with
  | zero => rfl
  | succ w ih => simp [natToBytesBE, ih]

lemma bytesToNatBE_snoc (l : List ℕ) (b : ℕ) :
    bytesToNatBE (l ++ [b]) = bytesToNatBE l * 256 + b := by
  simp [bytesToNatBE, List.foldl_append]

lemma bytesToNatBE_natToBytesBE (w v : ℕ) :
    bytesToNatBE (natToBytesBE w v) = v % 256 ^ w := by
  induction w generalizing v with
  | zero => simp [natToBytesBE, bytesToNatBE, Nat.mod_one]
  | succ w ih =>
    rw [natToBytesBE, bytesToNatBE_snoc, ih, pow_succ,
      mul_comm ((256 : ℕ) ^ w) 256, Nat.mod_mul]
    ring

lemma natToBytesBE_inj {w v1 v2 : ℕ} (h1 : v1 < 256 ^ w) (h2 : v2 < 256 ^ w)
    (h : natToBytesBE w v1 = natToBytesBE w v2) : v1 = v2 := by
  have hb := congrArg bytesToNatBE h
  rwa [bytesToNatBE_natToBytesBE, bytesToNatBE_natToBytesBE,
    Nat.mod_eq_of_lt h1, Nat.mod_eq_of_lt h2] at hb

lemma i32ToBeBytes_length (pid : ℤ) : (i32ToBeBytes pid).length = 4 := by
  simp [i32ToBeBytes, natToBytesBE_length]

lemma i32ToBeBytes_inj {pid1 pid2 : ℤ}
    (h1 : -2 ^ 31 ≤ pid1) (h2 : pid1 < 2 ^ 31) (h3 : -2 ^ 31 ≤ pid2) (h4 : pid2 < 2 ^ 31)
    (h : i32ToBeBytes pid1 = i32ToBeBytes pid2) : pid1 = pid2 := by
  have hpow : (256 : ℕ) ^ 4 = 4294967296 := by norm_num
  have b1 := Int.emod_lt_of_pos pid1 (show (0 : ℤ) < 2 ^ 32 by norm_num)
  have b2 := Int.emod_lt_of_pos pid2 (show (0 : ℤ) < 2 ^ 32 by norm_num)
  have n1 := Int.emod_nonneg pid1 (show (2 ^ 32 : ℤ) ≠ 0 by norm_num)
  have n2 := Int.emod_nonneg pid2 (show (2 ^ 32 : ℤ) ≠ 0 by norm_num)
  have e : (pid1 % (2 ^ 32 : ℤ)).toNat = (pid2 % (2 ^ 32 : ℤ)).toNat := by
    refine natToBytesBE_inj ?_ ?_ h
    · rw [hpow]; omega
    · rw [hpow]; omega
  omega

lemma serC_length (p : Pt) : (serC p).length = 65 := by
  simp [serC, natToBytesBE_length]

lemma serC_injective : Function.Injective serC := by
  intro p1 p2 h
  simp only [serC, List.cons.injEq, true_and] at h
  refine ZMod.val_injective groupOrder (natToBytesBE_inj ?_ ?_ h)
  · exact lt_trans (ZMod.val_lt p1) (by norm_num [groupOrder])
  · exact lt_trans (ZMod.val_lt p2) (by norm_num [groupOrder])

lemma HC_length (l : List ℕ) : (HC l).length = 32 := by
  simp [HC, natToBytesBE_length]

lemma flatten_map_length (ser : Pt → List ℕ) (hlen : ∀ p, (ser p).length = 65)
    (pts : List Pt) : ((pts.map ser).flatten).length = 65 * pts.length := by
  induction pts with
  | nil => simp
  | cons p ps ih => simp [ih, hlen]; ring

lemma flatten_map_inj (ser : Pt → List ℕ) (hlen : ∀ p, (ser p).length = 65)
    (hinj : Function.Injective ser) :
    ∀ pts1 pts2 : List Pt, pts1.length = pts2.length →
      (pts1.map ser).flatten = (pts2.map ser).flatten → pts1 = pts2 := by
  intro pts1
  induction pts1 with
  | nil =>
    intro pts2 hl _
    cases pts2 with
    | nil => rfl
    | cons q qs => simp at hl
  | cons p ps ih =>
    intro pts2 hl heq
    cases pts2 with
    | nil => simp at hl
    | cons q qs =>
      simp only [List.map_cons, List.flatten_cons] at heq
      obtain ⟨hhd, htl⟩ := List.append_inj heq (by rw [hlen, hlen])
      have hq : p = q := hinj hhd
      have hqs : ps = qs := ih qs (by simpa using hl) htl
      rw [hq, hqs]

/-- Characterization of `compute_challenge` when the digest has 32 bytes:
it is the big-endian digest value reduced into the scalar field, with the
zero scalar (and only the zero scalar) turned into an abort. -/
lemma compute_challenge_char (H : List ℕ → List ℕ) (ser : Pt → List ℕ)
    (sid : List ℕ) (pid : ℤ) (pts : List Pt)
    (hlen : (H (hashInput ser sid pid pts)).length = 32) :
    DLogProof.compute_challenge H ser sid pid pts =
      (if (bytesToNatBE (H (hashInput ser sid pid pts)) : Scalar) = 0 then none
       else some ((bytesToNatBE (H (hashInput ser sid pid pts)) : Scalar))) := by
  simp [DLogProof.compute_challenge, tryInto32, hlen]

lemma generate_proof_eq_none (H : List ℕ → List ℕ) (ser : Pt → List ℕ)
    (sid : List ℕ) (pid : ℤ) (x : Scalar) (Y B : Pt) (k : Scalar) :
    (DLogProof.generate_proof H ser sid pid x Y B k = none ↔
      DLogProof.compute_challenge H ser sid pid [B, Y, B * k] = none) := by
  cases hch : DLogProof.compute_challenge H ser sid pid [B, Y, B * k] <;>
    simp [DLogProof.generate_proof, hch]

lemma verify_proof_eq_none (H : List ℕ → List ℕ) (ser : Pt → List ℕ)
    (pf : DLogProof) (sid : List ℕ) (pid : ℤ) (Y B : Pt) :
    (DLogProof.verify_proof H ser pf sid pid Y B = none ↔
      DLogProof.compute_challenge H ser sid pid [B, Y, pf.commitment] = none) := by
  cases hch : DLogProof.compute_challenge H ser sid pid [B, Y, pf.commitment] <;>
    simp [DLogProof.verify_proof, hch]

/-! ### Claim theorems -/

/-- C1: Completeness round-trip — for every secret scalar `x`, base point
`B`, session id, participant id and prover randomness `k`, if the
public key is `x·B` and proof generation does not hit the zero-scalar
abort, then `verify_proof` accepts the generated proof with the same
context, public key and base point. -/
theorem completeness_round_trip (H : List ℕ → List ℕ) (ser : Pt → List ℕ)
    (sid : List ℕ) (pid : ℤ) (x k : Scalar) (B : Pt) (pf : DLogProof)
    (hgen : DLogProof.generate_proof H ser sid pid x (x * B) B k = some pf) :
    DLogProof.verify_proof H ser pf sid pid (x * B) B = some true := by
  cases hch : DLogProof.compute_challenge H ser sid pid [B, x * B, B * k] with
  | none => simp [DLogProof.generate_proof, hch] at hgen
  | some c =>
    simp only [DLogProof.generate_proof, hch, Option.some.injEq] at hgen
    have halg : B * (k + x * c) = B * k + c * (x * B) := by ring
    simp [DLogProof.verify_proof, ← hgen, DLogProof.new, hch, halg]

/-- C2: Verifier relation — whenever the challenge `c` derived from
`(session_id, participant_id, [B, Y, R])` exists, `verify_proof` returns
`true` if and only if `B·s = R + c·Y` holds as exact group-element
equality. -/
theorem verify_iff_schnorr_relation (H : List ℕ → List ℕ) (ser : Pt → List ℕ)
    (pf : DLogProof) (sid : List ℕ) (pid : ℤ) (Y B : Pt) (c : Scalar)
    (hch : DLogProof.compute_challenge H ser sid pid [B, Y, pf.commitment] = some c) :
    (DLogProof.verify_proof H ser pf sid pid Y B = some true ↔
      B * pf.response = pf.commitment + c * Y) := by
  simp [DLogProof.verify_proof, hch]

/-- C3: Challenge derivation algorithm — `compute_challenge` hashes exactly
the concatenation of the raw session id bytes, the 4-byte big-endian
encoding of the 32-bit participant id, and the uncompressed serialization
of each point in order; it interprets the 32-byte digest as a big-endian
unsigned integer and reduces it into the scalar field (with zero aborting). -/
theorem compute_challenge_spec (H : List ℕ → List ℕ) (ser : Pt → List ℕ)
    (sid : List ℕ) (pid : ℤ) (pts : List Pt)
    (hlen : (H (challengeTranscript ser sid pid pts)).length = 32) :
    DLogProof.compute_challenge H ser sid pid pts =
      (if (bytesToNatBE (H (challengeTranscript ser sid pid pts)) : Scalar) = 0 then none
       else some ((bytesToNatBE (H (challengeTranscript ser sid pid pts)) : Scalar))) := by
  have h := compute_challenge_char H ser sid pid pts
    (by rwa [hashInput_eq_transcript])
  rwa [hashInput_eq_transcript] at h

/-- C4: Prover algorithm — for every context, keys and internal random
scalar `k`, if the challenge `c` derived from `[B, Y, R]` with `R = k·B`
exists, then `generate_proof` returns exactly the proof with commitment
`R = k·B` and response `s = k + x·c` in the scalar field. -/
theorem generate_proof_structure (H : List ℕ → List ℕ) (ser : Pt → List ℕ)
    (sid : List ℕ) (pid : ℤ) (x k : Scalar) (Y B : Pt) (c : Scalar)
    (hch : DLogProof.compute_challenge H ser sid pid [B, Y, B * k] = some c) :
    DLogProof.generate_proof H ser sid pid x Y B k =
      some (DLogProof.new (B * k) (k + x * c)) := by
  simp [DLogProof.generate_proof, hch]

/-- C5: Zero-challenge fatality — when the reduced digest scalar is zero,
`compute_challenge` aborts the enclosing `generate_proof`/`verify_proof`
call (both return the abort `none`, never `some false`), and when it is
nonzero neither operation aborts. -/
theorem zero_challenge_aborts (H : List ℕ → List ℕ) (ser : Pt → List ℕ)
    (sid : List ℕ) (pid : ℤ) (x k : Scalar) (Y B : Pt) (pf : DLogProof)
    (hg : (H (hashInput ser sid pid [B, Y, B * k])).length = 32)
    (hv : (H (hashInput ser sid pid [B, Y, pf.commitment])).length = 32) :
    (DLogProof.generate_proof H ser sid pid x Y B k = none ↔
      (bytesToNatBE (H (hashInput ser sid pid [B, Y, B * k])) : Scalar) = 0) ∧
    (DLogProof.verify_proof H ser pf sid pid Y B = none ↔
      (bytesToNatBE (H (hashInput ser sid pid [B, Y, pf.commitment])) : Scalar) = 0) ∧
    ((bytesToNatBE (H (hashInput ser sid pid [B, Y, pf.commitment])) : Scalar) = 0 →
      DLogProof.verify_proof H ser pf sid pid Y B ≠ some false) := by
  have hgen := generate_proof_eq_none H ser sid pid x Y B k
  have hver := verify_proof_eq_none H ser pf sid pid Y B
  rw [compute_challenge_char H ser sid pid [B, Y, B * k] hg] at hgen
  rw [compute_challenge_char H ser sid pid [B, Y, pf.commitment] hv] at hver
  refine ⟨?_, ?_, ?_⟩
  · rw [hgen]; split <;> simp_all
  · rw [hver]; split <;> simp_all
  · intro h0 hfalse
    have : DLogProof.verify_proof H ser pf sid pid Y B = none := by
      rw [hver]; simp [h0]
    rw [this] at hfalse
    exact Option.noConfusion hfalse

set_option maxRecDepth 100000 in
/-- C7 (counterexample): a proof honestly generated with the correct key
pair `(x, Y) = (0, 0·B)` under session id `"A"` (byte 65) still verifies
under session id `"B"` (byte 66), so context binding fails as stated for
the zero private key. -/
theorem context_binding_zero_key_cex :
    DLogProof.generate_proof HC serC [65] 1 0 (0 * 1) 1 1 = some (DLogProof.new 1 1) ∧
    DLogProof.verify_proof HC serC (DLogProof.new 1 1) [66] 1 (0 * 1) 1 = some true := by
  constructor
  · decide
  · decide

/-- C7 (amended): for a proof honestly generated under one context,
verifying under a changed session id or participant id returns `false`
exactly when the original challenge `c` and the recomputed challenge `c₂`
act differently on the public key, i.e. `c·Y ≠ c₂·Y` with `Y = x·B`; in
particular it still verifies when the private key is zero. -/
theorem context_change_verification (H : List ℕ → List ℕ) (ser : Pt → List ℕ)
    (sid sid2 : List ℕ) (pid pid2 : ℤ) (x k c c2 : Scalar) (B : Pt) (pf : DLogProof)
    (hgen : DLogProof.generate_proof H ser sid pid x (x * B) B k = some pf)
    (hc : DLogProof.compute_challenge H ser sid pid [B, x * B, B * k] = some c)
    (hc2 : DLogProof.compute_challenge H ser sid2 pid2 [B, x * B, pf.commitment] = some c2) :
    (DLogProof.verify_proof H ser pf sid2 pid2 (x * B) B = some false ↔
      c * (x * B) ≠ c2 * (x * B)) := by
  simp only [DLogProof.generate_proof, hc, Option.some.injEq] at hgen
  rw [← hgen] at hc2 ⊢
  simp only [DLogProof.new] at hc2
  have halg : B * (k + x * c) = B * k + c * (x * B) := by ring
  simp [DLogProof.verify_proof, DLogProof.new, hc2, halg, add_right_inj]

/-- C8: Determinism — `compute_challenge` is a pure function of its
arguments, and `verify_proof` is a deterministic predicate: equal inputs
give equal challenges and equal boolean results. -/
theorem challenge_and_verify_deterministic (H : List ℕ → List ℕ) (ser : Pt → List ℕ)
    (sid1 sid2 : List ℕ) (pid1 pid2 : ℤ) (pts1 pts2 : List Pt)
    (h1 : sid1 = sid2) (h2 : pid1 = pid2) (h3 : pts1 = pts2) :
    DLogProof.compute_challenge H ser sid1 pid1 pts1 =
      DLogProof.compute_challenge H ser sid2 pid2 pts2 ∧
    ∀ (pf : DLogProof) (Y B : Pt),
      DLogProof.verify_proof H ser pf sid1 pid1 Y B =
        DLogProof.verify_proof H ser pf sid2 pid2 Y B := by
  subst h1; subst h2; subst h3
  exact ⟨rfl, fun _ _ _ => rfl⟩

/-- C9: Injective transcript encoding — for a fixed number of points, the
byte string fed to the hash by `compute_challenge` determines the session
id, the participant id (within the 32-bit signed range) and the point
list, because the participant id encoding is exactly 4 bytes and every
point serialization has the same fixed length. -/
theorem hash_input_injective (ser : Pt → List ℕ)
    (hlen : ∀ p, (ser p).length = 65) (hinj : Function.Injective ser)
    (sid1 sid2 : List ℕ) (pid1 pid2 : ℤ) (pts1 pts2 : List Pt)
    (hr1 : -2 ^ 31 ≤ pid1) (hr2 : pid1 < 2 ^ 31)
    (hr3 : -2 ^ 31 ≤ pid2) (hr4 : pid2 < 2 ^ 31)
    (hk : pts1.length = pts2.length)
    (heq : hashInput ser sid1 pid1 pts1 = hashInput ser sid2 pid2 pts2) :
    sid1 = sid2 ∧ pid1 = pid2 ∧ pts1 = pts2 := by
  rw [hashInput_eq_transcript, hashInput_eq_transcript] at heq
  unfold challengeTranscript at heq
  obtain ⟨hfront, hflat⟩ := List.append_inj' heq
    (by rw [flatten_map_length ser hlen, flatten_map_length ser hlen, hk])
  obtain ⟨hsid, hpid4⟩ := List.append_inj' hfront
    (by rw [i32ToBeBytes_length, i32ToBeBytes_length])
  exact ⟨hsid, i32ToBeBytes_inj hr1 hr2 hr3 hr4 hpid4,
    flatten_map_inj ser hlen hinj pts1 pts2 hk hflat⟩

/-- C10: Panic-freedom outside the fatal case — since the digest always
has exactly 32 bytes, the slice conversion before `BigInt::from_bytes`
never fails; the zero-scalar abort is the only failure of
`compute_challenge`, and under a nonzero derived challenge
`generate_proof` and `verify_proof` are total. -/
theorem digest_conversion_never_fails (H : List ℕ → List ℕ) (ser : Pt → List ℕ)
    (sid : List ℕ) (pid : ℤ) (pts : List Pt) (x k : Scalar) (Y B : Pt) (pf : DLogProof)
    (hH : ∀ b, (H b).length = 32) :
    tryInto32 (H (hashInput ser sid pid pts)) = some (H (hashInput ser sid pid pts)) ∧
    (DLogProof.compute_challenge H ser sid pid pts ≠ none ↔
      (bytesToNatBE (H (hashInput ser sid pid pts)) : Scalar) ≠ 0) ∧
    ((bytesToNatBE (H (hashInput ser sid pid [B, Y, B * k])) : Scalar) ≠ 0 →
      DLogProof.generate_proof H ser sid pid x Y B k ≠ none) ∧
    ((bytesToNatBE (H (hashInput ser sid pid [B, Y, pf.commitment])) : Scalar) ≠ 0 →
      DLogProof.verify_proof H ser pf sid pid Y B ≠ none) := by
  refine ⟨by simp [tryInto32, hH], ?_, ?_, ?_⟩
  · rw [compute_challenge_char H ser sid pid pts (hH _)]
    split <;> simp_all
  · intro hnz
    rw [Ne, generate_proof_eq_none,
      compute_challenge_char H ser sid pid [B, Y, B * k] (hH _)]
    simp [hnz]
  · intro hnz
    rw [Ne, verify_proof_eq_none,
      compute_challenge_char H ser sid pid [B, Y, pf.commitment] (hH _)]
    simp [hnz]

/-- Supporting lemma (key substitution): for an honest proof generated for
the key pair `(x, Y = x·B)`, verification with the substituted public key
`Y + B` returns `false` exactly when the generation-time challenge `c` and
the verification-time challenge `c₂` (derived over the substituted key)
satisfy `c·Y ≠ c₂·(Y + B)`.  For a collision-resistant hash this
disequality fails only with negligible probability, which is why the
repository's test observes rejection. -/
lemma key_substitution_iff (H : List ℕ → List ℕ) (ser : Pt → List ℕ)
    (sid : List ℕ) (pid : ℤ) (x k c c2 : Scalar) (B : Pt) (pf : DLogProof)
    (hgen : DLogProof.generate_proof H ser sid pid x (x * B) B k = some pf)
    (hc : DLogProof.compute_challenge H ser sid pid [B, x * B, B * k] = some c)
    (hc2 : DLogProof.compute_challenge H ser sid pid [B, x * B + B, pf.commitment] =
      some c2) :
    (DLogProof.verify_proof H ser pf sid pid (x * B + B) B = some false ↔
      c * (x * B) ≠ c2 * (x * B + B)) := by
  simp only [DLogProof.generate_proof, hc, Option.some.injEq] at hgen
  rw [← hgen] at hc2 ⊢
  simp only [DLogProof.new] at hc2
  have halg : B * (k + x * c) = B * k + c * (x * B) := by ring
  simp [DLogProof.verify_proof, DLogProof.new, hc2, halg, add_right_inj]


/-! ### Concrete witnesses for the parametric theorems -/

set_option maxRecDepth 400000

/-- C1 witness: a concrete honest round trip (base `1`, secret `2`,
randomness `3`) under the concrete stand-in hash and serialization. -/
theorem completeness_round_trip_witness :
    DLogProof.verify_proof HC serC
      (DLogProof.new 3
        18524563707903122855739138566810810614374338812682385096294387390195306405449)
      [65] 1 (2 * 1) 1 = some true :=
  completeness_round_trip HC serC [65] 1 2 3 1
    (DLogProof.new 3
      18524563707903122855739138566810810614374338812682385096294387390195306405449)
    (by decide)

/-- C2 witness: the verifier relation at a concrete proof and challenge. -/
theorem verify_iff_schnorr_relation_witness :
    (DLogProof.verify_proof HC serC (DLogProof.new 1 1) [65] 1 2 1 = some true ↔
      (1 : Pt) * (DLogProof.new 1 1).response =
        (DLogProof.new 1 1).commitment +
          (9262281853951561427869569283405405307187169406341192548147193695097653202721 :
            Scalar) * 2) :=
  verify_iff_schnorr_relation HC serC (DLogProof.new 1 1) [65] 1 2 1
    9262281853951561427869569283405405307187169406341192548147193695097653202721
    (by decide)

/-- C3 witness: the challenge-derivation characterization at a concrete
input. -/
theorem compute_challenge_spec_witness :
    (HC (challengeTranscript serC [65] 1 [1])).length = 32 ∧
    DLogProof.compute_challenge HC serC [65] 1 [1] =
      (if (bytesToNatBE (HC (challengeTranscript serC [65] 1 [1])) : Scalar) = 0 then none
       else some ((bytesToNatBE (HC (challengeTranscript serC [65] 1 [1])) : Scalar))) :=
  ⟨HC_length _, compute_challenge_spec HC serC [65] 1 [1] (HC_length _)⟩

/-- C4 witness: the prover's output shape at a concrete input. -/
theorem generate_proof_structure_witness :
    DLogProof.generate_proof HC serC [65] 1 2 2 1 3 =
      some (DLogProof.new ((1 : Pt) * 3)
        (3 + 2 *
          (9262281853951561427869569283405405307187169406341192548147193695097653202723 :
            Scalar))) :=
  generate_proof_structure HC serC [65] 1 2 3 2 1
    9262281853951561427869569283405405307187169406341192548147193695097653202723
    (by decide)

/-- C5 witness: the abort characterization at a concrete input. -/
theorem zero_challenge_aborts_witness :
    (HC (hashInput serC [65] 2 [1, 1, 1 * 0])).length = 32 ∧
    (HC (hashInput serC [65] 2 [1, 1, (DLogProof.new 1 1).commitment])).length = 32 ∧
    ((DLogProof.generate_proof HC serC [65] 2 1 1 1 0 = none ↔
        (bytesToNatBE (HC (hashInput serC [65] 2 [1, 1, 1 * 0])) : Scalar) = 0) ∧
      (DLogProof.verify_proof HC serC (DLogProof.new 1 1) [65] 2 1 1 = none ↔
        (bytesToNatBE (HC (hashInput serC [65] 2 [1, 1, (DLogProof.new 1 1).commitment])) :
          Scalar) = 0) ∧
      ((bytesToNatBE (HC (hashInput serC [65] 2 [1, 1, (DLogProof.new 1 1).commitment])) :
          Scalar) = 0 →
        DLogProof.verify_proof HC serC (DLogProof.new 1 1) [65] 2 1 1 ≠ some false)) :=
  ⟨HC_length _, HC_length _,
    zero_challenge_aborts HC serC [65] 2 1 0 1 1 (DLogProof.new 1 1)
      (HC_length _) (HC_length _)⟩

/-- C7 witness: a concrete honest proof (secret `5`, randomness `3`)
generated under session id byte `65` is rejected under session id byte
`66`, since the two challenges act differently on the public key. -/
theorem context_change_verification_witness :
    DLogProof.verify_proof HC serC
      (DLogProof.new 3
        56754768073685141485071525475850421617771340463733960024010811036931291650753)
      [66] 1 (5 * 1) 1 = some false :=
  (context_change_verification HC serC [65] [66] 1 1 5 3
      11350953614737028297014305095170084323554268092746792004802162207386258330150
      115031109236105309915341254698152001987138449047410241460446622394450276325671
      1
      (DLogProof.new 3
        56754768073685141485071525475850421617771340463733960024010811036931291650753)
      (by decide) (by decide) (by decide)).mpr (by decide)

/-- C8 witness: determinism instantiated at a concrete verification. -/
theorem challenge_and_verify_deterministic_witness :
    DLogProof.verify_proof HC serC (DLogProof.new 1 1) [65] 1 2 1 =
      DLogProof.verify_proof HC serC (DLogProof.new 1 1) [65] 1 2 1 :=
  (challenge_and_verify_deterministic HC serC [65] [65] 1 1 [1] [1] rfl rfl rfl).2
    (DLogProof.new 1 1) 2 1

/-- C9 witness: transcript injectivity instantiated at a concrete input
with the concrete injective fixed-length serialization. -/
theorem hash_input_injective_witness :
    ([65] : List ℕ) = [65] ∧ (1 : ℤ) = 1 ∧ ([1, 2] : List Pt) = [1, 2] :=
  hash_input_injective serC serC_length serC_injective [65] [65] 1 1 [1, 2] [1, 2]
    (by decide) (by decide) (by decide) (by decide) rfl rfl

/-- C10 witness: totality of the digest conversion and of the operations
at a concrete input. -/
theorem digest_conversion_never_fails_witness :
    tryInto32 (HC (hashInput serC [65] 1 [1])) = some (HC (hashInput serC [65] 1 [1])) ∧
    (DLogProof.compute_challenge HC serC [65] 1 [1] ≠ none ↔
      (bytesToNatBE (HC (hashInput serC [65] 1 [1])) : Scalar) ≠ 0) ∧
    ((bytesToNatBE (HC (hashInput serC [65] 1 [1, 1, 1 * 0])) : Scalar) ≠ 0 →
      DLogProof.generate_proof HC serC [65] 1 1 1 1 0 ≠ none) ∧
    ((bytesToNatBE (HC (hashInput serC [65] 1 [1, 1, (DLogProof.new 1 1).commitment])) :
        Scalar) ≠ 0 →
      DLogProof.verify_proof HC serC (DLogProof.new 1 1) [65] 1 1 1 ≠ none) :=
  digest_conversion_never_fails HC serC [65] 1 [1] 1 0 1 1 (DLogProof.new 1 1) HC_length
